import Mathlib

/-!
Verification of KaTeX `src/functions/accent.js` (accent composition and
layout). Parse nodes, the HTML box tree and the MathML tree are shallowly
embedded; the builders `htmlBuilder`, `mathmlBuilder` and the two `handler`
functions are translated from the source. External collaborators that live
outside this file's source (`utils.getBaseElem`, `utils.isCharacterBox`,
`html.buildGroup`, `buildCommon.*`, `stretchy.*`, `ParseNode.assertNodeType`)
are modelled from the spec, as marked on each definition.
-/

/-- Parse nodes. `nullNode` stands for JavaScript `null` (an absent
super/subscript). A `symbol` node is a single character together with the
font-metric entry (height, depth, skew-char kern, width) that layout would
resolve for it; `styled` is a styling-only wrapper (e.g. `\color`) carrying
no metric information; `composite` is an opaque multi-element expression with
its laid-out height/depth and natural spacing class. -/
inductive PNode where
  | nullNode : PNode
  | symbol (text : String) (height depth skew width : ℚ) : PNode
  | styled (inner : PNode) : PNode
  | composite (klass : String) (height depth : ℚ) : PNode
  | accent (label : String) (isStretchy isShifty : Bool) (base : PNode)
      (mode : String) : PNode
  | supsub (base sup sub : PNode) : PNode
  deriving DecidableEq, Repr

/-- Font-metric record for one glyph in Main-Regular, as returned by the
metric table behind `buildCommon.makeSymbol`. -/
structure CharMetrics where
  height : ℚ
  depth : ℚ
  italic : ℚ
  skew : ℚ
  width : ℚ
  deriving DecidableEq, Repr

/-- Modelled from the spec: the `options` object. Carries the current font's
x-height, the cramped flag toggled by `havingCrampedStyle`, and the external
read-only lookup tables (glyph metrics for accent labels, heights of the
stretchy SVG assets). -/
structure Options where
  xHeight : ℚ
  cramped : Bool
  accentMetrics : String → CharMetrics
  stretchyHeight : String → ℚ

/-- Modelled from the spec: `options.havingCrampedStyle()` returns the same
options in the cramped variant of the current style. -/
def Options.havingCrampedStyle (o : Options) : Options :=
  { o with cramped := true }

/-- HTML box tree (the relevant fragment of KaTeX's dom tree). `vkern` and
`velem` are the child records of `buildCommon.makeVList`; `velem` carries the
optional wrapper classes and the wrapper style's width-inset and left-margin
amounts (in em) used on the stretchy path. -/
inductive HBox where
  | symbolNode (text : String) (height depth italic skew width : ℚ) : HBox
  | span (classes : List String) (children : List HBox) (height depth : ℚ)
      (styleLeft styleTop : Option ℚ) : HBox
  | vlist (rows : List HBox) (height depth : ℚ) : HBox
  | vkern (size : ℚ) : HBox
  | velem (e : HBox) (wrapperCls : List String)
      (wrapWidthInset wrapMarginLeft : Option ℚ) : HBox
  | svgSpanBox (label : String) (height : ℚ) : HBox
  | staticSvgBox (name : String) (width height : ℚ) : HBox
  deriving Repr

def HBox.heightOf : HBox → ℚ
  | .symbolNode _ h _ _ _ _ => h
  | .span _ _ h _ _ _ => h
  | .vlist _ h _ => h
  | .vkern _ => 0
  | .velem e _ _ _ => e.heightOf
  | .svgSpanBox _ h => h
  | .staticSvgBox _ _ h => h

def HBox.depthOf : HBox → ℚ
  | .symbolNode _ _ d _ _ _ => d
  | .span _ _ _ d _ _ => d
  | .vlist _ _ d => d
  | .vkern _ => 0
  | .velem e _ _ _ => e.depthOf
  | .svgSpanBox _ _ => 0
  | .staticSvgBox _ _ _ => 0

def HBox.skewOf : HBox → ℚ
  | .symbolNode _ _ _ _ sk _ => sk
  | _ => 0

def HBox.widthOf : HBox → ℚ
  | .symbolNode _ _ _ _ _ w => w
  | .staticSvgBox _ w _ => w
  | _ => 0

def HBox.classesOf : HBox → List String
  | .span cs _ _ _ _ _ => cs
  | _ => []

def HBox.childrenOf : HBox → List HBox
  | .span _ ch _ _ _ _ => ch
  | .vlist rows _ _ => rows
  | _ => []

def HBox.styleLeftOf : HBox → Option ℚ
  | .span _ _ _ _ l _ => l
  | _ => none

def HBox.styleTopOf : HBox → Option ℚ
  | .span _ _ _ _ _ t => t
  | _ => none

/-- JavaScript `accent.italic = 0` on a symbol node. -/
def HBox.setItalic (b : HBox) (x : ℚ) : HBox :=
  match b with
  | .symbolNode t h d _ sk w => .symbolNode t h d x sk w
  | other => other

/-- JavaScript `span.style.left = v`. -/
def HBox.setStyleLeft (b : HBox) (x : ℚ) : HBox :=
  match b with
  | .span cs ch h d _ t => .span cs ch h d (some x) t
  | other => other

/-- JavaScript `span.style.top = v`. -/
def HBox.setStyleTop (b : HBox) (x : ℚ) : HBox :=
  match b with
  | .span cs ch h d l _ => .span cs ch h d l (some x)
  | other => other

/-- JavaScript `span.classes.push(c)`. -/
def HBox.pushCls (b : HBox) (c : String) : HBox :=
  match b with
  | .span cs ch h d l t => .span (cs ++ [c]) ch h d l t
  | other => other

/-- JavaScript `arr[0] = x` (sets slot 0, appending on an empty array). -/
def setIdx0 {α : Type} (x : α) : List α → List α
  | [] => [x]
  | _ :: t => x :: t

/-- JavaScript `span.children[0] = b2`. -/
def HBox.setChild0 (b : HBox) (b2 : HBox) : HBox :=
  match b with
  | .span cs ch h d l t => .span cs (setIdx0 b2 ch) h d l t
  | other => other

/-- JavaScript `span.classes[0] = c`. -/
def HBox.setCls0 (b : HBox) (c : String) : HBox :=
  match b with
  | .span cs ch h d l t => .span (setIdx0 c cs) ch h d l t
  | other => other

/-- JavaScript `span.height = x`. -/
def HBox.setHeightTo (b : HBox) (x : ℚ) : HBox :=
  match b with
  | .span cs ch _ d l t => .span cs ch x d l t
  | other => other

def listMaxQ (l : List ℚ) : ℚ := l.foldr max 0

/-- Modelled from the spec: `buildCommon.makeSpan` sizes a span from its
children (height and depth are the maxima over the children). -/
def makeSpan (classes : List String) (children : List HBox) : HBox :=
  .span classes children (listMaxQ (children.map HBox.heightOf))
    (listMaxQ (children.map HBox.depthOf)) none none

/-- Vertical extent contributed by one `makeVList` row. -/
def vrowExtent : HBox → ℚ
  | .velem e _ _ _ => e.heightOf + e.depthOf
  | .vkern s => s
  | b => b.heightOf + b.depthOf

/-- Modelled from the spec: `buildCommon.makeVList` with `firstBaseline`
positioning — a baseline-aligned vertical stack whose baseline is the first
row's baseline, so the depth is the first element's depth and the height is
the remaining total extent. -/
def makeVList (rows : List HBox) : HBox :=
  let d : ℚ :=
    match rows with
    | .velem e _ _ _ :: _ => e.depthOf
    | _ => 0
  .vlist rows ((rows.map vrowExtent).foldr (· + ·) 0 - d) d

/-- Modelled from the spec: `buildCommon.makeSymbol(label, "Main-Regular",
mode, options)` resolves the accent label to a symbol box with that glyph's
font metrics. -/
def makeSymbol (label _mode : String) (o : Options) : HBox :=
  let m := o.accentMetrics label
  .symbolNode label m.height m.depth m.italic m.skew m.width

/-- Modelled from the spec: `buildCommon.svgData.vec` — the fixed width and
height of the `vec` SVG asset. -/
def svgDataVecWidth : ℚ := 471 / 1000

def svgDataVecHeight : ℚ := 714 / 1000

/-- Modelled from the spec: `buildCommon.staticSvg("vec", options)`. -/
def staticSvgVec : HBox := .staticSvgBox "vec" svgDataVecWidth svgDataVecHeight

/-- Modelled from the spec: `stretchy.svgSpan(group, options)` — a
width-matching stretchy rendering of the accent keyed by its label. -/
def svgSpan (label : String) (o : Options) : HBox :=
  .svgSpanBox label (o.stretchyHeight label)

/-- Natural spacing class of an expression (the class its own layout would
put first on its box). -/
def natCls : PNode → String
  | .nullNode => "mord"
  | .symbol _ _ _ _ _ => "mord"
  | .styled i => natCls i
  | .composite k _ _ => k
  | .accent _ _ _ _ _ => "mord"
  | .supsub b _ _ => natCls b

/-- Modelled from the spec: `html.buildGroup(node, options)` — the external
recursive layout of an arbitrary expression. A symbol lays out as a symbol
box carrying its metrics; a styling wrapper lays out as a span around its
inner box (the wrapper itself has no skew); a supsub wrapper lays out with
the base box in child slot 0, its natural class first, and a height/depth
accounting for the raised/dropped scripts. -/
def buildGroup : PNode → Options → HBox
  | .nullNode, _ => makeSpan [] []
  | .symbol t h d sk w, _ => .symbolNode t h d 0 sk w
  | .styled inner, o => makeSpan ["styled"] [buildGroup inner o]
  | .composite k h d, _ => .span [k] [] h d none none
  | .accent _ _ _ b _, o => makeSpan ["mord", "accent"] [buildGroup b o]
  | .supsub b s1 s2, o =>
      let bb := buildGroup b o
      let supB := buildGroup s1 o
      let subB := buildGroup s2 o
      let hh : ℚ :=
        match s1 with
        | .nullNode => bb.heightOf
        | _ => max bb.heightOf (supB.heightOf + 1/2)
      let dd : ℚ :=
        match s2 with
        | .nullNode => bb.depthOf
        | _ => max bb.depthOf (subB.depthOf + 1/5)
      .span [natCls b, "msupsub"] [bb, supB, subB] hh dd none none

/-- Modelled from the spec: `utils.getBaseElem` — character peeling: descend
through styling-only wrapper layers to the innermost node. -/
def getBaseElem : PNode → PNode
  | .styled inner => getBaseElem inner
  | n => n

def PNode.isSymbolNode : PNode → Bool
  | .symbol _ _ _ _ _ => true
  | _ => false

/-- Modelled from the spec: `utils.isCharacterBox` — whether the node is a
single character, possibly under purely stylistic wrappers. -/
def isCharacterBox (n : PNode) : Bool :=
  (getBaseElem n).isSymbolNode

/-- Skew computation of `htmlBuilder` (accent.js lines 50-71): zero unless
the accent is shifty and the base is a character box, in which case the
innermost peeled character is laid out alone in cramped style and its skew
metric is read off. -/
def computeSkew (isShifty : Bool) (base : PNode) (o : Options) : ℚ :=
  if isShifty && isCharacterBox base then
    (buildGroup (getBaseElem base) o.havingCrampedStyle).skewOf
  else 0

/-- Body of `htmlBuilder` for one accent (accent.js lines 47-162): lay out
the base in cramped style, compute skew and clearance, build the accent body
on the non-stretchy or stretchy path, and stack base and accent into a
firstBaseline vlist wrapped in a `mord accent` span. -/
def buildAccentSpan (label : String) (isStretchy isShifty : Bool)
    (base : PNode) (mode : String) (o : Options) : HBox :=
  let body := buildGroup base o.havingCrampedStyle
  let skew := computeSkew isShifty base o
  let clearance := min body.heightOf o.xHeight
  let accentBody :=
    if !isStretchy then
      let accPair : HBox × ℚ :=
        if label = "\\vec" then (staticSvgVec, svgDataVecWidth)
        else
          let a := (makeSymbol label mode o).setItalic 0
          (a, a.widthOf)
      let accentFull := label = "\\textcircled"
      let ab0 := makeSpan ["accent-body"] [accPair.1]
      let ab1 := if accentFull then ab0.pushCls "accent-full" else ab0
      let clearance2 := if accentFull then body.heightOf else clearance
      let left := if accentFull then skew else skew - accPair.2 / 2
      let ab2 := ab1.setStyleLeft left
      let ab3 := if label = "\\textcircled" then ab2.setStyleTop (1/5) else ab2
      makeVList
        [.velem body [] none none, .vkern (-clearance2),
         .velem ab3 [] none none]
    else
      let ab := svgSpan label o
      makeVList
        [.velem body [] none none,
         .velem ab ["svg-align"]
           (if skew > 0 then some (2 * skew) else none)
           (if skew > 0 then some (2 * skew) else none)]
  makeSpan ["mord", "accent"] [accentBody]

/-- `htmlBuilder` (accent.js lines 16-180). It receives either an accent
node or a supsub wrapper whose base is an accent. The supsub branch mutates
`supSub.value.base` in place, so the builder is modelled as returning both
the output box and the final state of the input node; `assertNodeType`
failures (modelled from the spec: fail fast on a type mismatch) are the
error case. -/
def htmlBuilder (grp : PNode) (o : Options) : Except String (HBox × PNode) :=
  match grp with
  | .supsub sbase sup sub =>
      match sbase with
      | .accent label st sh abase m =>
          let supSub2 := PNode.supsub abase sup sub
          let supSubGroup := buildGroup supSub2 o
          let accentWrap := buildAccentSpan label st sh abase m o
          let patched :=
            (((supSubGroup.setChild0 accentWrap).setHeightTo
                (max accentWrap.heightOf supSubGroup.heightOf)).setCls0 "mord")
          .ok (patched, supSub2)
      | _ => .error "Expected node of type accent, but got another type"
  | .accent label st sh abase m =>
      .ok (buildAccentSpan label st sh abase m o, grp)
  | _ => .error "Expected node of type accent, but got another type"

def htmlResultBox (grp : PNode) (o : Options) : Option HBox :=
  (htmlBuilder grp o).toOption.map Prod.fst

def htmlResultNode (grp : PNode) (o : Options) : Option PNode :=
  (htmlBuilder grp o).toOption.map Prod.snd

/-- MathML tree nodes. -/
inductive MNode where
  | node (typ : String) (children : List MNode)
      (attributes : List (String × String)) : MNode
  | textNode (s : String) : MNode
  deriving Repr

/-- JavaScript `node.setAttribute(key, value)`. -/
def MNode.setAttribute (n : MNode) (k v : String) : MNode :=
  match n with
  | .node t c a => .node t c (a ++ [(k, v)])
  | other => other

/-- Modelled from the spec: `stretchy.mathMLnode(label)` — the stretchy-asset
provider's MathML `mo` node for the label. -/
def stretchyMathMLnode (label : String) : MNode :=
  .node "mo" [.textNode label] []

/-- Modelled from the spec: `mml.makeText(label, mode)`. -/
def mmlMakeText (text _mode : String) : MNode := .textNode text

/-- Modelled from the spec: `mml.buildGroup` — the external recursive
structured-markup conversion of an expression. -/
def mmlBuildGroup : PNode → Options → MNode
  | .nullNode, _ => .node "mrow" [] []
  | .symbol t _ _ _ _, _ => .node "mi" [.textNode t] []
  | .styled i, o => .node "mstyle" [mmlBuildGroup i o] []
  | .composite k _ _, _ => .node "mrow" [.textNode k] []
  | .accent _ _ _ b _, o => .node "mrow" [mmlBuildGroup b o] []
  | .supsub b s1 s2, o =>
      .node "msubsup"
        [mmlBuildGroup b o, mmlBuildGroup s2 o, mmlBuildGroup s1 o] []

/-- `mathmlBuilder` (accent.js lines 182-199), applied to the fields of an
accent node: build the accent `mo` node (stretchy provider or fixed text),
wrap the built base and the accent in an `mover`, and set `accent="true"`. -/
def mathmlBuilder (label : String) (isStretchy _isShifty : Bool)
    (base : PNode) (mode : String) (o : Options) : MNode :=
  let accentNode :=
    if isStretchy then stretchyMathMLnode label
    else MNode.node "mo" [mmlMakeText label mode] []
  let node := MNode.node "mover" [mmlBuildGroup base o, accentNode] []
  node.setAttribute "accent" "true"

/-- Character-list version of "p occurs at the front of s". -/
def leadsWith : List Char → List Char → Bool
  | [], _ => true
  | _ :: _, [] => false
  | a :: as, b :: bs => a == b && leadsWith as bs

/-- Character-list version of "p occurs somewhere inside s" — the semantics
of testing a literal-only regular expression against a string. -/
def occursIn (p : List Char) : List Char → Bool
  | [] => leadsWith p []
  | b :: bs => leadsWith p (b :: bs) || occursIn p bs

/-- The eleven alternatives of `NON_STRETCHY_ACCENT_REGEX` (each compiled to
a literal backslash followed by the command word). -/
def nonStretchyAccents : List String :=
  ["\\acute", "\\grave", "\\ddot", "\\tilde", "\\bar", "\\breve",
   "\\check", "\\hat", "\\vec", "\\dot", "\\mathring"]

/-- `NON_STRETCHY_ACCENT_REGEX.test(funcName)`: unanchored substring search
for any of the eleven literal alternatives. -/
def nonStretchyAccentMatch (s : String) : Bool :=
  nonStretchyAccents.any (fun p => occursIn p.toList s.toList)

/-- The `names` list of the math-mode accent `defineFunction` call
(accent.js lines 209-215). -/
def mathAccentNames : List String :=
  ["\\acute", "\\grave", "\\ddot", "\\tilde", "\\bar", "\\breve",
   "\\check", "\\hat", "\\vec", "\\dot", "\\mathring",
   "\\widehat", "\\widetilde", "\\overrightarrow", "\\overleftarrow",
   "\\Overrightarrow", "\\overleftrightarrow", "\\overgroup",
   "\\overlinesegment", "\\overleftharpoon", "\\overrightharpoon"]

/-- The `names` list of the text-mode accent `defineFunction` call
(accent.js lines 242-245). -/
def textAccentNames : List String :=
  ["\\'", "\\`", "\\^", "\\~", "\\=", "\\u", "\\.", "\\\"",
   "\\r", "\\H", "\\v", "\\textcircled"]

/-- The math-mode accent handler (accent.js lines 219-234). -/
def mathAccentHandler (funcName mode : String) (arg : PNode) : PNode :=
  let isStretchy := !nonStretchyAccentMatch funcName
  let isShifty := !isStretchy || funcName == "\\widehat"
      || funcName == "\\widetilde"
  .accent funcName isStretchy isShifty arg mode

/-- The text-mode accent handler (accent.js lines 251-261). -/
def textAccentHandler (funcName mode : String) (arg : PNode) : PNode :=
  .accent funcName false true arg mode

def PNode.accLabel : PNode → String
  | .accent l _ _ _ _ => l
  | _ => ""

def PNode.accIsStretchy : PNode → Bool
  | .accent _ st _ _ _ => st
  | _ => false

def PNode.accIsShifty : PNode → Bool
  | .accent _ _ sh _ _ => sh
  | _ => false

def PNode.isAccentNode : PNode → Bool
  | .accent _ _ _ _ _ => true
  | _ => false

def PNode.isSupsubNode : PNode → Bool
  | .supsub _ _ _ => true
  | _ => false

/-- Apply the accent layout (`buildAccentSpan`) to an accent parse node. -/
def buildAccentNode (n : PNode) (o : Options) : HBox :=
  match n with
  | .accent l st sh b m => buildAccentSpan l st sh b m o
  | _ => makeSpan [] []

def HBox.child0 : HBox → Option HBox
  | .span _ (c :: _) _ _ _ _ => some c
  | _ => none

def vlistRow (i : Nat) : HBox → Option HBox
  | .vlist rows _ _ => rows.get? i
  | _ => none

/-- The size of the kern row between base and accent in the built box. -/
def vlistKern1 (b : HBox) : Option ℚ :=
  match b.child0 with
  | some v =>
      match vlistRow 1 v with
      | some (.vkern s) => some s
      | _ => none
  | none => none

/-- The accent-body span (row 2 of the vlist) in the non-stretchy output. -/
def accentBody2 (b : HBox) : Option HBox :=
  match b.child0 with
  | some v =>
      match vlistRow 2 v with
      | some (.velem e _ _ _) => some e
      | _ => none
  | none => none

/-- The wrapper-style width inset of the stretchy accent row. -/
def stretchyRow1Inset (b : HBox) : Option ℚ :=
  match b.child0 with
  | some v =>
      match vlistRow 1 v with
      | some (.velem _ _ ins _) => ins
      | _ => none
  | none => none

/-- The wrapper-style left margin of the stretchy accent row. -/
def stretchyRow1Margin (b : HBox) : Option ℚ :=
  match b.child0 with
  | some v =>
      match vlistRow 1 v with
      | some (.velem _ _ _ ml) => ml
      | _ => none
  | none => none

/-- Accent glyph width used for the centering adjustment (accent.js lines
83-98): the fixed SVG width for `\vec`, the glyph width otherwise. -/
def accentWidth (label : String) (o : Options) : ℚ :=
  if label = "\\vec" then svgDataVecWidth else (o.accentMetrics label).width

/-- Skew metric stored on a symbol node. -/
def PNode.symSkewOf : PNode → ℚ
  | .symbol _ _ _ sk _ => sk
  | _ => 0

/-- A concrete metric record used by the concrete scenarios. -/
def stdMetrics : CharMetrics :=
  { height := 7/10, depth := 0, italic := 1/100, skew := 0, width := 1/4 }

/-- A concrete options record used by the concrete scenarios. -/
def oStd : Options :=
  { xHeight := 43/100, cramped := false,
    accentMetrics := fun _ => stdMetrics,
    stretchyHeight := fun _ => 9/25 }

/-- Scenario base: a single glyph whose skew-char kern is 0.1em. -/
def scBase : PNode := .symbol "a" (43/100) 0 (1/10) (1/2)

/-- Scenario node: `\widehat` applied to `scBase` by the math handler. -/
def scWideHat : PNode := mathAccentHandler "\\widehat" "math" scBase

/-- Helper: `mmlBuildGroup` never reads the options record. -/
theorem mmlBuildGroup_ignores_options (b : PNode) (o o2 : Options) :
    mmlBuildGroup b o = mmlBuildGroup b o2 := by
  induction b with
  | nullNode => rfl
  | symbol t h d sk w => rfl
  | styled i ih => simp [mmlBuildGroup, ih]
  | composite k h d => rfl
  | accent l st sh bb m ih => simp [mmlBuildGroup, ih]
  | supsub bb s1 s2 ih1 ih2 ih3 => simp [mmlBuildGroup, ih1, ih2, ih3]

/-- C1 fails on the code: the math-mode handler applied to `\acute` yields a
non-stretchy accent whose label is neither `\widehat` nor `\widetilde`, yet
`isShifty` is `true`, contradicting the claim that `isShifty` is false
whenever `isStretchy` is false except for those two labels. -/
theorem c1_claim_fails_on_acute :
    (mathAccentHandler "\\acute" "math" PNode.nullNode).accIsStretchy = false ∧
    (mathAccentHandler "\\acute" "math" PNode.nullNode).accLabel ≠ "\\widehat" ∧
    (mathAccentHandler "\\acute" "math" PNode.nullNode).accLabel ≠ "\\widetilde" ∧
    (mathAccentHandler "\\acute" "math" PNode.nullNode).accIsShifty = true := by
  decide

/-- C1 (amended): for every name handled by the math-mode accent handler,
`isShifty` is true for all non-stretchy accents plus exactly the two
stretchy labels `\widehat` and `\widetilde`, and is false whenever
`isStretchy` is true unless the label is one of those two exceptions; both
flags are a fixed table of the label. -/
theorem c1_shifty_fixed_table (name : String) (h : name ∈ mathAccentNames)
    (m : String) (b : PNode) :
    ((mathAccentHandler name m b).accIsStretchy = false →
      (mathAccentHandler name m b).accIsShifty = true) ∧
    ((mathAccentHandler name m b).accIsStretchy = true →
      (mathAccentHandler name m b).accIsShifty =
        (name == "\\widehat" || name == "\\widetilde")) ∧
    (mathAccentHandler name m b).accIsShifty =
      ((nonStretchyAccents ++ ["\\widehat", "\\widetilde"]).contains name) ∧
    (mathAccentHandler name m b).accIsStretchy =
      (!(nonStretchyAccents.contains name)) := by
  simp only [mathAccentHandler, PNode.accIsShifty, PNode.accIsStretchy]
  fin_cases h <;> decide

/-- Witness for `c1_shifty_fixed_table` at `\widehat`. -/
theorem c1_shifty_fixed_table_witness :
    ("\\widehat" ∈ mathAccentNames) ∧
    ((mathAccentHandler "\\widehat" "math" PNode.nullNode).accIsStretchy = true →
      (mathAccentHandler "\\widehat" "math" PNode.nullNode).accIsShifty =
        ("\\widehat" == "\\widehat" || "\\widehat" == "\\widetilde")) :=
  ⟨by decide,
    (c1_shifty_fixed_table "\\widehat" (by decide) "math" PNode.nullNode).2.1⟩

/-- C2: the computed skew is 0 when `isShifty` is false; it is 0 when the
base is not a character box even if `isShifty` is true; and when `isShifty`
is true and the base is a single character box, peeling reaches a symbol
node and the skew equals that innermost glyph's skew metric, read off the
glyph laid out alone in cramped style. -/
theorem c2_skew_resolution (sh : Bool) (b : PNode) (o : Options) :
    (sh = false → computeSkew sh b o = 0) ∧
    (isCharacterBox b = false → computeSkew sh b o = 0) ∧
    (sh = true → isCharacterBox b = true →
      (getBaseElem b).isSymbolNode = true ∧
      computeSkew sh b o =
        (buildGroup (getBaseElem b) o.havingCrampedStyle).skewOf ∧
      (buildGroup (getBaseElem b) o.havingCrampedStyle).skewOf =
        (getBaseElem b).symSkewOf) := by
  refine ⟨fun h => by simp [computeSkew, h],
    fun h => by simp [computeSkew, h], fun h1 h2 => ?_⟩
  have hsym : (getBaseElem b).isSymbolNode = true := h2
  refine ⟨hsym, by simp [computeSkew, h1, h2], ?_⟩
  cases hg : getBaseElem b with
  | symbol t hh dd sk w => simp [buildGroup, HBox.skewOf, PNode.symSkewOf]
  | nullNode => rw [hg] at hsym; simp [PNode.isSymbolNode] at hsym
  | styled i => rw [hg] at hsym; simp [PNode.isSymbolNode] at hsym
  | composite k hh dd => rw [hg] at hsym; simp [PNode.isSymbolNode] at hsym
  | accent l st sh2 bb m => rw [hg] at hsym; simp [PNode.isSymbolNode] at hsym
  | supsub bb s1 s2 => rw [hg] at hsym; simp [PNode.isSymbolNode] at hsym

/-- Witness for `c2_skew_resolution`: a glyph of skew 0.1em under a styling
wrapper resolves to skew 0.1. -/
theorem c2_skew_resolution_witness :
    computeSkew true (PNode.styled scBase) oStd =
      (getBaseElem (PNode.styled scBase)).symSkewOf ∧
    (getBaseElem (PNode.styled scBase)).symSkewOf = 1/10 := by
  have h := (c2_skew_resolution true (PNode.styled scBase) oStd).2.2 rfl rfl
  exact ⟨h.2.1.trans h.2.2, rfl⟩

/-- C5 fails on the code: in the `\widehat` scenario with skew-char kern
0.1em the skew is 0.1 and the stretchy path is taken, but the stretchy
layer's left margin is 0.2em (`2 * skew`), not the claimed 0.1em. -/
theorem c5_claim_fails_margin :
    computeSkew scWideHat.accIsShifty scBase oStd = 1/10 ∧
    scWideHat.accIsStretchy = true ∧
    stretchyRow1Margin (buildAccentNode scWideHat oStd) = some (1/5) ∧
    ¬ stretchyRow1Margin (buildAccentNode scWideHat oStd) = some (1/10) := by
  have hnode : scWideHat = PNode.accent "\\widehat" true true scBase "math" := rfl
  have hskew : computeSkew true scBase oStd = 1/10 := rfl
  have hmarg : stretchyRow1Margin (buildAccentNode scWideHat oStd) = some (1/5) := by
    rw [hnode]
    norm_num [buildAccentNode, buildAccentSpan, hskew, stretchyRow1Margin,
      makeSpan, makeVList, HBox.child0, vlistRow, svgSpan, List.get?]
  refine ⟨hskew, rfl, hmarg, ?_⟩
  rw [hmarg]
  intro hq
  rw [Option.some.injEq] at hq
  norm_num at hq

/-- C5 (amended): for the shifty stretchy accent `\widehat` over a single
glyph whose skew-char kern is 0.1em, the skew is 0.1, the stretchy path is
taken, and the stretchy layer's horizontal extent is inset by 0.2em
(`2 * skew`) with a left margin of 0.2em (`2 * skew`). -/
theorem c5_scenario_widehat :
    scWideHat.accIsStretchy = true ∧
    scWideHat.accIsShifty = true ∧
    computeSkew scWideHat.accIsShifty scBase oStd = 1/10 ∧
    stretchyRow1Inset (buildAccentNode scWideHat oStd) = some (2 * (1/10)) ∧
    stretchyRow1Margin (buildAccentNode scWideHat oStd) = some (2 * (1/10)) := by
  have hnode : scWideHat = PNode.accent "\\widehat" true true scBase "math" := rfl
  have hskew : computeSkew true scBase oStd = 1/10 := rfl
  refine ⟨rfl, rfl, hskew, ?_, ?_⟩ <;>
    (rw [hnode];
     norm_num [buildAccentNode, buildAccentSpan, hskew, stretchyRow1Inset,
       stretchyRow1Margin, makeSpan, makeVList, HBox.child0, vlistRow,
       svgSpan, List.get?])

def c7Sup : PNode := .symbol "2" (7/10) 0 0 (1/2)

def c7Input : PNode :=
  .supsub (.accent "\\hat" false true scBase "math") c7Sup .nullNode

/-- C7 fails on the code: the HTML builder permanently rewrites the supsub
wrapper's base field, so the input node after the call differs from the
input node before it. -/
theorem c7_claim_fails_mutation :
    htmlResultNode c7Input oStd =
      some (PNode.supsub scBase c7Sup PNode.nullNode) ∧
    ¬ htmlResultNode c7Input oStd = some c7Input := by
  refine ⟨rfl, fun hEq => ?_⟩
  have h2 : some (PNode.supsub scBase c7Sup PNode.nullNode) = some c7Input :=
    (rfl : htmlResultNode c7Input oStd =
      some (PNode.supsub scBase c7Sup PNode.nullNode)).symm.trans hEq
  simp [c7Input, scBase, c7Sup] at h2

/-- C7 (amended): the HTML builder is a pure function of its input, but the
input node is not left unchanged: a bare accent input comes back unchanged,
while a supsub wrapper's base field is permanently rewritten from the accent
node to the accent's inner base. -/
theorem c7_input_rewrite (grp : PNode) (o : Options) :
    (grp.isAccentNode = true → htmlResultNode grp o = some grp) ∧
    (∀ l st sh ab m sup sub,
      grp = .supsub (.accent l st sh ab m) sup sub →
      htmlResultNode grp o = some (.supsub ab sup sub)) := by
  constructor
  · intro hacc
    cases grp with
    | accent l st sh b m => rfl
    | nullNode => simp [PNode.isAccentNode] at hacc
    | symbol t h d sk w => simp [PNode.isAccentNode] at hacc
    | styled i => simp [PNode.isAccentNode] at hacc
    | composite k h d => simp [PNode.isAccentNode] at hacc
    | supsub b s1 s2 => simp [PNode.isAccentNode] at hacc
  · intro l st sh ab m sup sub hq
    subst hq
    rfl

/-- Witness for `c7_input_rewrite` at the concrete supsub-wrapped accent. -/
theorem c7_input_rewrite_witness :
    htmlResultNode c7Input oStd =
      some (PNode.supsub scBase c7Sup PNode.nullNode) :=
  (c7_input_rewrite c7Input oStd).2 "\\hat" false true scBase "math"
    c7Sup PNode.nullNode rfl

/-- Helper: kern row of the non-stretchy accent vlist. -/
theorem vlistKern1_nonstretchy (l : String) (sh : Bool) (b : PNode)
    (m : String) (o : Options) :
    vlistKern1 (buildAccentSpan l false sh b m o) =
      some (-(if l = "\\textcircled"
              then (buildGroup b o.havingCrampedStyle).heightOf
              else min (buildGroup b o.havingCrampedStyle).heightOf
                o.xHeight)) := by
  by_cases hc : l = "\\textcircled"
  · subst hc
    simp [buildAccentSpan, vlistKern1, makeVList, makeSpan, HBox.child0,
      vlistRow, HBox.pushCls, HBox.setStyleLeft, HBox.setStyleTop,
      List.get?]
  · by_cases hv : l = "\\vec" <;>
      simp [buildAccentSpan, vlistKern1, makeVList, makeSpan, HBox.child0,
        vlistRow, HBox.pushCls, HBox.setStyleLeft, HBox.setStyleTop,
        List.get?, hv, hc]

/-- C3: in every non-stretchy accent layout the kern between base and accent
is minus the clearance, and the clearance is `min(base height, xHeight)` —
hence at most the x-height — except for `\textcircled`, where it is exactly
the base box's height; `\textcircled` only arises from the text-mode
handler, which always constructs it non-stretchy (it is not a math-mode
accent name). -/
theorem c3_clearance (l m : String) (sh : Bool) (b : PNode) (o : Options) :
    (vlistKern1 (buildAccentSpan l false sh b m o) =
      some (-(if l = "\\textcircled"
              then (buildGroup b o.havingCrampedStyle).heightOf
              else min (buildGroup b o.havingCrampedStyle).heightOf
                o.xHeight))) ∧
    (l ≠ "\\textcircled" →
      min (buildGroup b o.havingCrampedStyle).heightOf o.xHeight ≤
        o.xHeight) ∧
    (l = "\\textcircled" →
      decide (l ∈ mathAccentNames) = false ∧
      (textAccentHandler l m b).accIsStretchy = false) := by
  refine ⟨vlistKern1_nonstretchy l sh b m o,
    fun _ => min_le_right _ _, fun hl => ⟨by rw [hl]; decide, rfl⟩⟩

/-- Witness for `c3_clearance` at `\textcircled` over a tall base. -/
theorem c3_clearance_witness :
    vlistKern1 (buildAccentSpan "\\textcircled" false true
        (PNode.composite "minner" (7/10) 0) "text" oStd) =
      some (-(buildGroup (PNode.composite "minner" (7/10) 0)
          oStd.havingCrampedStyle).heightOf) ∧
    decide (("\\textcircled" : String) ∈ mathAccentNames) = false ∧
    (textAccentHandler "\\textcircled" "text"
        (PNode.composite "minner" (7/10) 0)).accIsStretchy = false := by
  have h := c3_clearance "\\textcircled" "text" true
    (PNode.composite "minner" (7/10) 0) oStd
  have h3 := h.2.2 rfl
  refine ⟨?_, h3.1, h3.2⟩
  have h1 := h.1
  simp only [if_pos rfl] at h1
  exact h1

/-- C4: in every non-stretchy accent layout the accent body's style-left
offset is `skew - width/2`, except for `\textcircled`, whose offset is
exactly `skew` and whose body carries the width-contributing `accent-full`
class; with `isShifty` false the skew is 0, so the ordinary offset is
exactly `-width/2`. -/
theorem c4_left_offset (l m : String) (sh : Bool) (b : PNode) (o : Options) :
    ((accentBody2 (buildAccentSpan l false sh b m o)).map HBox.styleLeftOf =
      some (some (if l = "\\textcircled"
                  then computeSkew sh b o
                  else computeSkew sh b o - accentWidth l o / 2))) ∧
    ((accentBody2 (buildAccentSpan l false sh b m o)).map
        (fun e => e.classesOf.contains "accent-full") =
      some (l == "\\textcircled")) ∧
    computeSkew false b o = 0 := by
  refine ⟨?_, ?_, by simp [computeSkew]⟩ <;>
  · by_cases hc : l = "\\textcircled"
    · subst hc
      simp [buildAccentSpan, accentBody2, makeVList, makeSpan, HBox.child0,
        vlistRow, HBox.pushCls, HBox.setStyleLeft, HBox.setStyleTop,
        HBox.styleLeftOf, HBox.classesOf, List.get?, accentWidth]
    · by_cases hv : l = "\\vec" <;>
        simp [buildAccentSpan, accentBody2, makeVList, makeSpan, HBox.child0,
          vlistRow, HBox.pushCls, HBox.setStyleLeft, HBox.setStyleTop,
          HBox.styleLeftOf, HBox.classesOf, List.get?, accentWidth,
          makeSymbol, HBox.setItalic, HBox.widthOf, hv, hc]

/-- C6: for every supsub-wrapped accent, the returned box is the supsub
layout's box with child slot 0 replaced by the finished accent box, its
height recomputed as the maximum of the accent box's height and the height
the supsub layout computed, and its first class forced to `mord` whatever
the inner expression's natural class was. -/
theorem c6_supsub_patch (l : String) (st sh : Bool) (ab : PNode) (m : String)
    (sup sub : PNode) (o : Options) :
    ((htmlResultBox (.supsub (.accent l st sh ab m) sup sub) o).bind
        HBox.child0 = some (buildAccentSpan l st sh ab m o)) ∧
    ((htmlResultBox (.supsub (.accent l st sh ab m) sup sub) o).map
        HBox.heightOf =
      some (max (buildAccentSpan l st sh ab m o).heightOf
        (buildGroup (.supsub ab sup sub) o).heightOf)) ∧
    ((htmlResultBox (.supsub (.accent l st sh ab m) sup sub) o).map
        (fun bx => bx.classesOf.head?) = some (some "mord")) := by
  refine ⟨?_, ?_, ?_⟩ <;>
    simp [htmlResultBox, htmlBuilder, Except.toOption, buildGroup,
      HBox.setChild0, HBox.setCls0, HBox.setHeightTo, HBox.child0,
      HBox.heightOf, HBox.classesOf, setIdx0]

/-- C10: in the supsub-wrapped case the builder changes only child slot 0,
the height, and the first class of the box the external supsub layout
produced; its depth, remaining children, remaining classes and style fields
are returned unchanged. -/
theorem c10_patch_frame (l : String) (st sh : Bool) (ab : PNode) (m : String)
    (sup sub : PNode) (o : Options) :
    ((htmlResultBox (.supsub (.accent l st sh ab m) sup sub) o).map
        HBox.depthOf =
      some (buildGroup (.supsub ab sup sub) o).depthOf) ∧
    ((htmlResultBox (.supsub (.accent l st sh ab m) sup sub) o).map
        (fun bx => bx.childrenOf.tail) =
      some ((buildGroup (.supsub ab sup sub) o).childrenOf.tail)) ∧
    ((htmlResultBox (.supsub (.accent l st sh ab m) sup sub) o).map
        (fun bx => bx.classesOf.tail) =
      some ((buildGroup (.supsub ab sup sub) o).classesOf.tail)) ∧
    ((htmlResultBox (.supsub (.accent l st sh ab m) sup sub) o).map
        HBox.styleLeftOf =
      some (buildGroup (.supsub ab sup sub) o).styleLeftOf) ∧
    ((htmlResultBox (.supsub (.accent l st sh ab m) sup sub) o).map
        HBox.styleTopOf =
      some (buildGroup (.supsub ab sup sub) o).styleTopOf) := by
  refine ⟨?_, ?_, ?_, ?_, ?_⟩ <;>
    simp [htmlResultBox, htmlBuilder, Except.toOption, buildGroup,
      HBox.setChild0, HBox.setCls0, HBox.setHeightTo, HBox.depthOf,
      HBox.childrenOf, HBox.classesOf, HBox.styleLeftOf, HBox.styleTopOf,
      setIdx0]

/-- C8: the structured-markup emitter always returns an `mover` node whose
children are the built base and the accent node, carrying the attribute
`accent="true"`; it is computed from the label, stretchiness, base and mode
alone — unchanged under any change to `isShifty` (the source of skew) or to
the options record (the source of clearance and stretchy sizing). -/
theorem c8_mathml_over (label : String) (st sh sh2 : Bool) (base : PNode)
    (m : String) (o o2 : Options) :
    (mathmlBuilder label st sh base m o =
      MNode.node "mover"
        [mmlBuildGroup base o,
         if st then stretchyMathMLnode label
         else MNode.node "mo" [mmlMakeText label m] []]
        [("accent", "true")]) ∧
    mathmlBuilder label st sh base m o = mathmlBuilder label st sh2 base m o ∧
    mathmlBuilder label st sh base m o =
      mathmlBuilder label st sh base m o2 := by
  refine ⟨?_, rfl, ?_⟩
  · cases st <;> rfl
  · simp [mathmlBuilder, mmlBuildGroup_ignores_options base o o2]

/-- C9: the HTML builder fails fast with an error — producing no output
box — whenever it receives a supsub wrapper whose base is not an accent
node, or a non-supsub node that is not an accent node; the failure is a
deterministic function of the input. -/
theorem c9_malformed_error (grp : PNode) (o : Options) :
    ((∃ sb sup sub, grp = .supsub sb sup sub ∧ sb.isAccentNode = false) ∨
      (grp.isSupsubNode = false ∧ grp.isAccentNode = false)) →
    ∃ msg, htmlBuilder grp o = .error msg := by
  intro h
  cases grp with
  | supsub sb sup sub =>
      rcases h with ⟨sb2, sup2, sub2, he, hacc⟩ | ⟨hss, _⟩
      · injection he with j1 j2 j3
        rw [← j1] at hacc
        cases sb with
        | accent l st sh b m => simp [PNode.isAccentNode] at hacc
        | nullNode => exact ⟨_, rfl⟩
        | symbol t hh d sk w => exact ⟨_, rfl⟩
        | styled i => exact ⟨_, rfl⟩
        | composite k hh d => exact ⟨_, rfl⟩
        | supsub b2 s1 s2 => exact ⟨_, rfl⟩
      · simp [PNode.isSupsubNode] at hss
  | accent l st sh b m =>
      rcases h with ⟨sb2, sup2, sub2, he, _⟩ | ⟨_, hacc⟩
      · exact PNode.noConfusion he
      · simp [PNode.isAccentNode] at hacc
  | nullNode =>
      exact ⟨_, rfl⟩
  | symbol t hh d sk w =>
      exact ⟨_, rfl⟩
  | styled i =>
      exact ⟨_, rfl⟩
  | composite k hh d =>
      exact ⟨_, rfl⟩

/-- Witness for `c9_malformed_error`: a supsub wrapper over a non-accent
base is rejected. -/
theorem c9_malformed_error_witness :
    ∃ msg, htmlBuilder (PNode.supsub (PNode.composite "minner" 1 0)
      PNode.nullNode PNode.nullNode) oStd = .error msg :=
  c9_malformed_error _ oStd (Or.inl ⟨_, _, _, rfl, rfl⟩)
